import Mathlib

/-!
Verification of the diff-coverage report core (`diff_cover/report_generator.py`).

The Python source is shallowly embedded:
* `DiffViolations.make` mirrors `DiffViolations.__init__`;
* the aggregator queries (`src_paths`, `percent_covered`, `total_num_lines`,
  `total_num_missing`, `total_percent_covered`) mirror the methods of
  `BaseReportGenerator`, with the memoized `_diff_violations` dictionary
  represented by `diffViolationsMap`;
* `hunkify`, `code_and_context` (via `padHunk`) and `classify` mirror the
  methods of `Hunker`, with the file content passed as a `List String` and
  Python list slicing embedded by `pySlice` (including negative indices).

Line numbers are embedded as `ℤ` (Python ints), Python floats as `ℚ`
(exact arithmetic), and Python's truncating `int()` conversion as `pyInt`.
-/

/-- A violation record; the core only reads its `line` attribute. -/
structure Violation where
  line : ℤ
deriving DecidableEq, Repr

/-- Per-file intersection of violation and measured lines with the diff,
mirroring `DiffViolations.__init__`: `lines` is the set of violation line
numbers intersected with `diff_lines`; `measured_lines` defaults to all of
`diff_lines` when the reporter gives no measured set (`none`), and otherwise
is the reported set intersected with `diff_lines`. -/
structure DiffViolations where
  lines : Finset ℤ
  measured_lines : Finset ℤ
deriving DecidableEq

def DiffViolations.make (violations : List Violation) (measured_lines : Option (Finset ℤ))
    (diff_lines : Finset ℤ) : DiffViolations :=
  { lines := (violations.map Violation.line).toFinset ∩ diff_lines
    measured_lines :=
      match measured_lines with
      | none => diff_lines
      | some m => m ∩ diff_lines }

/-- The violations-reporter collaborator: per path, a list of violation
records and an optional set of measured lines (`none` is the Python `None`
sentinel meaning "no explicit measured-lines set"). -/
structure ViolationsReporter where
  violations : String → List Violation
  measured_lines : String → Option (Finset ℤ)

/-- The diff-reporter collaborator: the set of changed paths and, per path,
the set of changed line numbers. -/
structure DiffReporter where
  src_paths_changed : Finset String
  lines_changed : String → Finset ℤ

/-- The memoized `_diff_violations` dictionary: one `DiffViolations` entry
per path in `src_paths_changed`; `Option` models Python's `dict.get`
returning `None` for absent keys. -/
def diffViolationsMap (v : ViolationsReporter) (d : DiffReporter) (p : String) :
    Option DiffViolations :=
  if p ∈ d.src_paths_changed then
    some (DiffViolations.make (v.violations p) (v.measured_lines p) (d.lines_changed p))
  else
    none

/-- `BaseReportGenerator.src_paths`: the paths whose entry has a non-empty
`measured_lines` set. -/
def src_paths (v : ViolationsReporter) (d : DiffReporter) : Finset String :=
  d.src_paths_changed.filter fun p =>
    0 < (DiffViolations.make (v.violations p) (v.measured_lines p)
          (d.lines_changed p)).measured_lines.card

/-- Result of `percent_covered`: Python `None`, a raised
`ZeroDivisionError`, or a returned float value (embedded as `ℚ`). -/
inductive PercentResult where
  | noData : PercentResult
  | zeroDivError : PercentResult
  | val : ℚ → PercentResult
deriving DecidableEq, Repr

/-- `BaseReportGenerator.percent_covered`: `None` when the path has no
entry; otherwise `100 - len(lines)/len(measured_lines)*100`, which raises
`ZeroDivisionError` when `measured_lines` is empty. -/
def percent_covered (v : ViolationsReporter) (d : DiffReporter) (p : String) : PercentResult :=
  match diffViolationsMap v d p with
  | none => .noData
  | some dv =>
      if dv.measured_lines.card = 0 then .zeroDivError
      else .val (100 - (dv.lines.card : ℚ) / (dv.measured_lines.card : ℚ) * 100)

/-- `BaseReportGenerator.total_num_lines`: sum of `len(measured_lines)`
over all entries. -/
def total_num_lines (v : ViolationsReporter) (d : DiffReporter) : ℕ :=
  d.src_paths_changed.sum fun p =>
    (DiffViolations.make (v.violations p) (v.measured_lines p)
      (d.lines_changed p)).measured_lines.card

/-- `BaseReportGenerator.total_num_missing`: sum of `len(lines)` over all
entries. -/
def total_num_missing (v : ViolationsReporter) (d : DiffReporter) : ℕ :=
  d.src_paths_changed.sum fun p =>
    (DiffViolations.make (v.violations p) (v.measured_lines p)
      (d.lines_changed p)).lines.card

/-- Python's `int()` on a rational: truncation toward zero. -/
def pyInt (q : ℚ) : ℤ :=
  if 0 ≤ q then ⌊q⌋ else ⌈q⌉

/-- `BaseReportGenerator.total_percent_covered`:
`int(float(total_lines - total_missing) / total_lines * 100)` when
`total_lines > 0`, else `100`. -/
def total_percent_covered (v : ViolationsReporter) (d : DiffReporter) : ℤ :=
  if 0 < total_num_lines v d then
    pyInt (((total_num_lines v d : ℚ) - (total_num_missing v d : ℚ)) /
      (total_num_lines v d : ℚ) * 100)
  else
    100

/-! ## The `Hunker` class -/

/-- `Hunker.lines_of_context`, fixed to 2 in `Hunker.__init__`. -/
def lines_of_context : ℤ := 2

/-- The loop of `Hunker.hunkify`: `prev` is the element of the previous
iteration (always the last element of `current`).  The base case returns
`hunks` only — exactly as the Python `return hunks`, which never appends
the final `current_hunk`. -/
def hunkifyGo (prev : ℤ) (current : List ℤ) (hunks : List (List ℤ)) :
    List ℤ → List (List ℤ)
  | [] => hunks
  | b :: rest =>
      if b - prev < 2 * lines_of_context + 2 then
        hunkifyGo b (current ++ [b]) hunks rest
      else
        hunkifyGo b [b] (hunks ++ [current]) rest

/-- `Hunker.hunkify`. -/
def hunkify (line_numbers : List ℤ) : List (List ℤ) :=
  match line_numbers with
  | [] => []
  | a :: rest => hunkifyGo a [a] [] rest

/-- Python `range(a, b)` over integers. -/
def intRange (a b : ℤ) : List ℤ :=
  (List.range (b - a).toNat).map fun k => a + Int.ofNat k

/-- Python slice index resolution: a negative index counts from the end
(clamped at 0), a non-negative one is clamped at the length. -/
def pyIdx (len : ℕ) (a : ℤ) : ℕ :=
  if a < 0 then ((len : ℤ) + a).toNat else min a.toNat len

/-- Python list slice `xs[a : b]`. -/
def pySlice {α : Type} (xs : List α) (a b : ℤ) : List α :=
  let s := pyIdx xs.length a
  let e := pyIdx xs.length b
  (xs.drop s).take (e - s)

/-- The loop body of `Hunker.code_and_context` for one raw hunk:
`zip(range(0, hunk[-1]+R+1), content[:hunk[-1]+R])` when
`hunk[0] - R < 0`, else
`zip(range(hunk[0]-R, hunk[-1]+R+1), content[hunk[0]-R-1 : hunk[-1]+R])`. -/
def padHunk (content : List String) (hunk : List ℤ) : List (ℤ × String) :=
  if hunk.headI - lines_of_context < 0 then
    (intRange 0 (hunk.getLastI + lines_of_context + 1)).zip
      (pySlice content 0 (hunk.getLastI + lines_of_context))
  else
    (intRange (hunk.headI - lines_of_context) (hunk.getLastI + lines_of_context + 1)).zip
      (pySlice content (hunk.headI - lines_of_context - 1) (hunk.getLastI + lines_of_context))

/-- `Hunker.code_and_context`, with the file content passed explicitly. -/
def code_and_context (content : List String) (line_numbers : List ℤ) :
    List (List (ℤ × String)) :=
  (hunkify line_numbers).map (padHunk content)

/-- The `Line` namedtuple produced by `Hunker.classify`. -/
structure Line where
  line_num : ℤ
  line_code : String
  line_type : String
deriving DecidableEq, Repr

/-- Classification of one `(line number, content)` pair, as in the loop of
`Hunker.classify`: membership in the missing-lines list wins, then
membership in the diff's changed set. -/
def classifyPair (line_numbers : List ℤ) (changed : Finset ℤ) (p : ℤ × String) : Line :=
  if p.1 ∈ line_numbers then ⟨p.1, p.2, "VIOLATION"⟩
  else if p.1 ∈ changed then ⟨p.1, p.2, "NEWCONTEXT"⟩
  else ⟨p.1, p.2, "OLDCONTEXT"⟩

/-- The inner loop of `Hunker.classify` over one padded hunk. -/
def classifyHunk (line_numbers : List ℤ) (changed : Finset ℤ)
    (hunk : List (ℤ × String)) : List Line :=
  hunk.map (classifyPair line_numbers changed)

/-- `Hunker.classify`. -/
def classify (content : List String) (line_numbers : List ℤ) (changed : Finset ℤ) :
    List (List Line) :=
  (code_and_context content line_numbers).map (classifyHunk line_numbers changed)

/-! ## Concrete collaborator states used by the theorems -/

/-- A five-line file used to exercise the start-of-file padding branch. -/
def content5 : List String := ["line1", "line2", "line3", "line4", "line5"]

/-! ## Claims -/

/-- C1: the spec's scan rule says `[10, 15]` (gap 5 < 6) yields the single
hunk `[10, 15]` and `[10, 16]` (gap 6) yields the two hunks `[10]`, `[16]`,
every input line appearing in exactly one output hunk.  The code never
appends the final `current_hunk` before returning, so it yields `[]` and
`[[10]]` respectively: the last hunk is always lost. -/
theorem C1_hunkify_drops_last_hunk :
    hunkify [10, 15] = [] ∧ hunkify [10, 16] = [[10]] := by
  decide

/-- C2: the claim says missing line `[1]` with `R = 2` yields the window
`[1..3]`, each window line `n` paired with the text of line `n` (1-based).
On a five-line file the code yields no window at all for `[1]` (the hunkify
bug drops the only hunk), and the padding step applied directly to the raw
hunk `[1]` yields the pairs `(0, line1), (1, line2), (2, line3)`: a window
numbered `[0..2]` pairing each number `n` with the text of line `n + 1`. -/
theorem C2_padding_off_by_one :
    code_and_context content5 [1] = [] ∧
    padHunk content5 [1] = [(0, "line1"), (1, "line2"), (2, "line3")] := by
  decide

/-- C3 counterexample: with reported violations at line 5, reported measured
set `∅` and changed lines `{5}`, the constructed `DiffViolations` has
`lines = {5}` but `measured_lines = ∅`, so `violation_lines ⊆ measured_lines`
fails for this collaborator input. -/
theorem C3_cex :
    ¬ (DiffViolations.make [⟨5⟩] (some ∅) {5}).lines ⊆
        (DiffViolations.make [⟨5⟩] (some ∅) {5}).measured_lines := by
  decide

/-- C3 (amended): `violation_lines ⊆ changed_lines` and
`measured_lines ⊆ changed_lines` hold for every collaborator input, and
`violation_lines ⊆ measured_lines` holds whenever the measured-lines input
is the `None` sentinel or contains every reported violation line. -/
theorem C3_subset_chain (violations : List Violation) (m : Option (Finset ℤ))
    (d : Finset ℤ) :
    (DiffViolations.make violations m d).lines ⊆ d ∧
    (DiffViolations.make violations m d).measured_lines ⊆ d ∧
    ((m = none ∨ ∃ ms, m = some ms ∧ (violations.map Violation.line).toFinset ⊆ ms) →
      (DiffViolations.make violations m d).lines ⊆
        (DiffViolations.make violations m d).measured_lines) := by
  refine ⟨Finset.inter_subset_right, ?_, ?_⟩
  · cases m with
    | none => exact fun x hx => hx
    | some ms => exact Finset.inter_subset_right
  · rintro (rfl | ⟨ms, rfl, hsub⟩)
    · exact Finset.inter_subset_right
    · intro x hx
      have hx' : x ∈ (violations.map Violation.line).toFinset ∧ x ∈ d :=
        Finset.mem_inter.mp hx
      exact Finset.mem_inter.mpr ⟨hsub hx'.1, hx'.2⟩

/-- Witness for C3: at violations `[5]`, sentinel measured input and changed
lines `{5}`, the full chain holds. -/
theorem C3_subset_chain_witness :
    (DiffViolations.make [⟨5⟩] none {5}).lines ⊆ {5} ∧
    (DiffViolations.make [⟨5⟩] none {5}).measured_lines ⊆ {5} ∧
    (DiffViolations.make [⟨5⟩] none {5}).lines ⊆
      (DiffViolations.make [⟨5⟩] none {5}).measured_lines := by
  have h := C3_subset_chain [⟨5⟩] none {5}
  exact ⟨h.1, h.2.1, h.2.2 (Or.inl rfl)⟩

/-- C7: `src_paths` returns exactly the paths whose `DiffViolations` entry
has a non-empty `measured_lines` set; a changed path whose restricted
measured set is empty is excluded. -/
theorem C7_src_paths (v : ViolationsReporter) (d : DiffReporter) (p : String) :
    p ∈ src_paths v d ↔
      ∃ dv, diffViolationsMap v d p = some dv ∧ dv.measured_lines.Nonempty := by
  unfold src_paths diffViolationsMap
  by_cases hp : p ∈ d.src_paths_changed
  · simp [hp, Finset.mem_filter, Finset.card_pos]
  · simp [hp, Finset.mem_filter]

/-- C8: the constructed `measured_lines` is the full changed-lines set when
the reporter gives the `None` sentinel, and the reported set intersected
with the changed lines otherwise. -/
theorem C8_measured_default (violations : List Violation) (d ms : Finset ℤ) :
    (DiffViolations.make violations none d).measured_lines = d ∧
    (DiffViolations.make violations (some ms) d).measured_lines = ms ∩ d :=
  ⟨rfl, rfl⟩

/-- Reporter for C4's counterexample: path `"b"` is changed with line
`{1}` but the reported measured set is empty, so the entry has
`measured_lines = ∅`. -/
def cv4x : ViolationsReporter := ⟨fun _ => [], fun _ => some ∅⟩

def cd4x : DiffReporter := ⟨{"b"}, fun _ => {1}⟩

/-- C4 counterexample: the path `"b"` has a `DiffViolations` entry, yet
`percent_covered` does not return a float: the division by
`len(measured_lines) = 0` raises `ZeroDivisionError`, so the value is not
in `[0, 100]` as claimed. -/
theorem C4_cex :
    (diffViolationsMap cv4x cd4x "b").isSome = true ∧
    percent_covered cv4x cd4x "b" = .zeroDivError := by
  decide

/-- C4 (amended): for a path with no entry `percent_covered` returns
`None`; for a path whose entry has a non-empty `measured_lines` set it
returns `100 - |violation_lines| / |measured_lines| * 100`, and that value
lies in `[0, 100]` whenever `violation_lines ⊆ measured_lines`. -/
theorem C4_percent_covered (v : ViolationsReporter) (d : DiffReporter) (p : String) :
    (diffViolationsMap v d p = none → percent_covered v d p = .noData) ∧
    ∀ dv, diffViolationsMap v d p = some dv → dv.measured_lines.Nonempty →
      percent_covered v d p =
        .val (100 - (dv.lines.card : ℚ) / (dv.measured_lines.card : ℚ) * 100) ∧
      (dv.lines ⊆ dv.measured_lines →
        0 ≤ 100 - (dv.lines.card : ℚ) / (dv.measured_lines.card : ℚ) * 100 ∧
        100 - (dv.lines.card : ℚ) / (dv.measured_lines.card : ℚ) * 100 ≤ 100) := by
  constructor
  · intro h
    unfold percent_covered
    rw [h]
  · intro dv h hne
    have hcard : dv.measured_lines.card ≠ 0 := (Finset.card_pos.mpr hne).ne'
    constructor
    · unfold percent_covered
      rw [h]
      simp [hcard]
    · intro hsub
      have hc : (dv.lines.card : ℚ) ≤ (dv.measured_lines.card : ℚ) := by
        exact_mod_cast Finset.card_le_card hsub
      have hpos : (0 : ℚ) < (dv.measured_lines.card : ℚ) := by
        exact_mod_cast Finset.card_pos.mpr hne
      have hle1 : (dv.lines.card : ℚ) / (dv.measured_lines.card : ℚ) ≤ 1 :=
        (div_le_one hpos).mpr hc
      have hge0 : 0 ≤ (dv.lines.card : ℚ) / (dv.measured_lines.card : ℚ) := by
        positivity
      constructor
      · linarith
      · linarith

/-- Reporter pair realizing the spec's worked example: measured lines
`{5, 6, 7}`, one violation at line 6. -/
def cv4 : ViolationsReporter := ⟨fun _ => [⟨6⟩], fun _ => some {5, 6, 7}⟩

def cd4 : DiffReporter := ⟨{"a"}, fun _ => {5, 6, 7}⟩

/-- Witness for C4: with measured lines `{5, 6, 7}` and violation lines
`{6}`, `percent_covered` returns exactly `100 - 1/3 * 100`, in `[0, 100]`. -/
theorem C4_percent_covered_witness :
    percent_covered cv4 cd4 "a" = .val (100 - (1 : ℚ) / 3 * 100) ∧
    0 ≤ 100 - (1 : ℚ) / 3 * 100 ∧ 100 - (1 : ℚ) / 3 * 100 ≤ 100 := by
  have h := (C4_percent_covered cv4 cd4 "a").2
    (DiffViolations.make [⟨6⟩] (some {5, 6, 7}) {5, 6, 7}) (by decide) (by decide)
  have hb := h.2 (by decide)
  have e1 : (DiffViolations.make [⟨6⟩] (some {5, 6, 7}) ({5, 6, 7} : Finset ℤ)).lines.card = 1 := by
    decide
  have e2 : (DiffViolations.make [⟨6⟩] (some {5, 6, 7})
      ({5, 6, 7} : Finset ℤ)).measured_lines.card = 3 := by
    decide
  refine ⟨?_, by norm_num, by norm_num⟩
  rw [h.1, e1, e2]
  norm_num

/-- Reporter for C5's counterexample: two violation lines but only one
measured line, so the diff has more missing lines than measured lines. -/
def cv5x : ViolationsReporter := ⟨fun _ => [⟨1⟩, ⟨2⟩], fun _ => some {1}⟩

def cd5x : DiffReporter := ⟨{"a"}, fun _ => {1, 2}⟩

/-- C5 counterexample: with `total_num_lines = 1` and
`total_num_missing = 2`, `total_percent_covered` returns `-100`, which is
not in `[0, 100]`. -/
theorem C5_cex : total_percent_covered cv5x cd5x = -100 := by
  have t1 : total_num_lines cv5x cd5x = 1 := by decide
  have t2 : total_num_missing cv5x cd5x = 2 := by decide
  have harg : ((total_num_lines cv5x cd5x : ℚ) - (total_num_missing cv5x cd5x : ℚ)) /
      (total_num_lines cv5x cd5x : ℚ) * 100 = ((-100 : ℤ) : ℚ) := by
    rw [t1, t2]
    push_cast
    norm_num
  have hpy : pyInt ((-100 : ℤ) : ℚ) = -100 := by
    unfold pyInt
    rw [if_neg (by push_cast; norm_num), Int.ceil_intCast]
  unfold total_percent_covered
  rw [harg, hpy, if_pos (by rw [t1]; norm_num)]

/-- C5 (amended): provided `total_num_missing ≤ total_num_lines` (as holds
whenever each entry satisfies `lines ⊆ measured_lines`),
`total_percent_covered` is an integer in `[0, 100]` equal to
`⌊100 - missing / lines * 100⌋` when `total_num_lines > 0`, and exactly
`100` when `total_num_lines = 0` (in particular on an empty diff). -/
theorem C5_total_percent (v : ViolationsReporter) (d : DiffReporter)
    (h : total_num_missing v d ≤ total_num_lines v d) :
    (0 < total_num_lines v d →
      total_percent_covered v d =
        ⌊(100 : ℚ) - (total_num_missing v d : ℚ) / (total_num_lines v d : ℚ) * 100⌋ ∧
      0 ≤ total_percent_covered v d ∧ total_percent_covered v d ≤ 100) ∧
    (total_num_lines v d = 0 → total_percent_covered v d = 100) := by
  constructor
  · intro ht
    have htQ : (0 : ℚ) < (total_num_lines v d : ℚ) := by exact_mod_cast ht
    have hmQ : (total_num_missing v d : ℚ) ≤ (total_num_lines v d : ℚ) := by
      exact_mod_cast h
    have h0 : 0 ≤ ((total_num_lines v d : ℚ) - (total_num_missing v d : ℚ)) /
        (total_num_lines v d : ℚ) * 100 := by
      have := div_nonneg (sub_nonneg.mpr hmQ) htQ.le
      linarith
    have h100 : ((total_num_lines v d : ℚ) - (total_num_missing v d : ℚ)) /
        (total_num_lines v d : ℚ) * 100 ≤ 100 := by
      have : ((total_num_lines v d : ℚ) - (total_num_missing v d : ℚ)) /
          (total_num_lines v d : ℚ) ≤ 1 :=
        (div_le_one htQ).mpr (by linarith)
      linarith
    have hq : ((total_num_lines v d : ℚ) - (total_num_missing v d : ℚ)) /
        (total_num_lines v d : ℚ) * 100 =
        100 - (total_num_missing v d : ℚ) / (total_num_lines v d : ℚ) * 100 := by
      field_simp
      ring
    have hval : total_percent_covered v d =
        ⌊((total_num_lines v d : ℚ) - (total_num_missing v d : ℚ)) /
          (total_num_lines v d : ℚ) * 100⌋ := by
      unfold total_percent_covered pyInt
      rw [if_pos ht, if_pos h0]
    refine ⟨?_, ?_, ?_⟩
    · rw [hval, hq]
    · rw [hval]
      exact Int.floor_nonneg.mpr h0
    · rw [hval]
      have := Int.floor_le_floor h100
      simpa using this
  · intro ht
    unfold total_percent_covered
    simp [ht]

/-- Reporter pair for C5's witness: measured lines `{5, 6, 7}` with one
violation, so 1 of 3 measured lines is missing. -/
def cv5 : ViolationsReporter := ⟨fun _ => [⟨6⟩], fun _ => some {5, 6, 7}⟩

def cd5 : DiffReporter := ⟨{"a"}, fun _ => {5, 6, 7}⟩

/-- Witness for C5: with 3 measured lines and 1 missing the total percent
is `⌊100 - 1/3 * 100⌋ = 66`, inside `[0, 100]`. -/
theorem C5_total_percent_witness :
    total_percent_covered cv5 cd5 =
      ⌊(100 : ℚ) - (total_num_missing cv5 cd5 : ℚ) / (total_num_lines cv5 cd5 : ℚ) * 100⌋ ∧
    0 ≤ total_percent_covered cv5 cd5 ∧ total_percent_covered cv5 cd5 ≤ 100 :=
  (C5_total_percent cv5 cd5 (by decide)).1 (by decide)

/-- Reporter for C9: path `"a"` is changed (lines `{3}`) but the reported
measured set is empty, so the entry exists with `measured_lines = ∅`. -/
def cv9 : ViolationsReporter := ⟨fun _ => [], fun _ => some ∅⟩

def cd9 : DiffReporter := ⟨{"a"}, fun _ => {3}⟩

/-- C9: a changed path with an empty `measured_lines` entry makes
`percent_covered` evaluate the unguarded division by zero
(`ZeroDivisionError`) rather than return `None`; and `None` is returned
exactly when the path has no `DiffViolations` entry. -/
theorem C9_zero_div :
    ("a" ∈ cd9.src_paths_changed ∧ percent_covered cv9 cd9 "a" = .zeroDivError) ∧
    ∀ (v : ViolationsReporter) (d : DiffReporter) (p : String),
      percent_covered v d p = .noData ↔ diffViolationsMap v d p = none := by
  constructor
  · exact ⟨by decide, by decide⟩
  · intro v d p
    unfold percent_covered
    cases h : diffViolationsMap v d p with
    | none => simp
    | some dv =>
        simp only [reduceCtorEq, iff_false]
        split
        · exact fun hc => PercentResult.noConfusion hc
        · exact fun hc => PercentResult.noConfusion hc

/-- Classification never changes the line number of a pair. -/
theorem classifyPair_line_num (ln : List ℤ) (ch : Finset ℤ) (p : ℤ × String) :
    (classifyPair ln ch p).line_num = p.1 := by
  unfold classifyPair
  split_ifs <;> rfl

/-- Classification only ever produces the three tag strings. -/
theorem classifyPair_line_type (ln : List ℤ) (ch : Finset ℤ) (p : ℤ × String) :
    (classifyPair ln ch p).line_type = "VIOLATION" ∨
    (classifyPair ln ch p).line_type = "NEWCONTEXT" ∨
    (classifyPair ln ch p).line_type = "OLDCONTEXT" := by
  unfold classifyPair
  split_ifs <;> simp
/-- `classifyPair` on an explicit pair, with the tag pulled out. -/
theorem classifyPair_mk (ln : List ℤ) (ch : Finset ℤ) (n : ℤ) (c : String) :
    classifyPair ln ch (n, c) =
      ⟨n, c, if n ∈ ln then "VIOLATION"
        else if n ∈ ch then "NEWCONTEXT" else "OLDCONTEXT"⟩ := by
  simp only [classifyPair]
  split_ifs <;> rfl

/-- C6: for every `(line number, content)` pair of a padded hunk window,
the classified line at the same position carries that line number and
content and is tagged `VIOLATION` when the number is a missing line, else
`NEWCONTEXT` when it is a changed line, else `OLDCONTEXT` (the code's
string spellings of the spec's `VIOLATION` / `NEW_CONTEXT` /
`OLD_CONTEXT`). -/
theorem C6_classify_rule (ln : List ℤ) (ch : Finset ℤ) (w : List (ℤ × String))
    (n : ℤ) (c : String) (i : ℕ) (h : w[i]? = some (n, c)) :
    (classifyHunk ln ch w)[i]? =
      some ⟨n, c, if n ∈ ln then "VIOLATION"
        else if n ∈ ch then "NEWCONTEXT" else "OLDCONTEXT"⟩ := by
  unfold classifyHunk
  rw [List.getElem?_map, h, Option.map_some', classifyPair_mk]

/-- The spec's worked window `[8..12]` for C6's witness. -/
def w6 : List (ℤ × String) :=
  [(8, "l8"), (9, "l9"), (10, "l10"), (11, "l11"), (12, "l12")]

/-- Witness for C6: window `[8..12]` with missing lines `{10}` and changed
lines `{9, 10, 11}` classifies as OLD, NEW, VIOLATION, NEW, OLD. -/
theorem C6_classify_rule_witness :
    (classifyHunk [10] {9, 10, 11} w6)[0]? = some ⟨8, "l8", "OLDCONTEXT"⟩ ∧
    (classifyHunk [10] {9, 10, 11} w6)[1]? = some ⟨9, "l9", "NEWCONTEXT"⟩ ∧
    (classifyHunk [10] {9, 10, 11} w6)[2]? = some ⟨10, "l10", "VIOLATION"⟩ ∧
    (classifyHunk [10] {9, 10, 11} w6)[3]? = some ⟨11, "l11", "NEWCONTEXT"⟩ ∧
    (classifyHunk [10] {9, 10, 11} w6)[4]? = some ⟨12, "l12", "OLDCONTEXT"⟩ := by
  refine ⟨?_, ?_, ?_, ?_, ?_⟩
  · rw [C6_classify_rule [10] {9, 10, 11} w6 8 "l8" 0 (by decide)]
    decide
  · rw [C6_classify_rule [10] {9, 10, 11} w6 9 "l9" 1 (by decide)]
    decide
  · rw [C6_classify_rule [10] {9, 10, 11} w6 10 "l10" 2 (by decide)]
    decide
  · rw [C6_classify_rule [10] {9, 10, 11} w6 11 "l11" 3 (by decide)]
    decide
  · rw [C6_classify_rule [10] {9, 10, 11} w6 12 "l12" 4 (by decide)]
    decide

/-- The element at position `i` of `intRange a b` is `a + i`. -/
theorem intRange_getElem (a b : ℤ) (i : ℕ) (x : ℤ)
    (h : (intRange a b)[i]? = some x) : x = a + (i : ℤ) := by
  unfold intRange at h
  rw [List.getElem?_map] at h
  rcases lt_or_ge i ((b - a).toNat) with hlt | hge
  · rw [List.getElem?_range hlt] at h
    simp only [Option.map_some'] at h
    exact (Option.some.inj h).symm
  · rw [List.getElem?_eq_none (by simpa using hge)] at h
    simp at h

/-- The first components of a zip against `intRange a b` are `a + i` at
position `i`. -/
theorem intRange_zip_fst {β : Type} (a b : ℤ) (ys : List β) (i : ℕ) (p : ℤ × β)
    (h : ((intRange a b).zip ys)[i]? = some p) : p.1 = a + (i : ℤ) :=
  intRange_getElem a b i p.1 (List.getElem?_zip_eq_some.mp h).1

/-- Within one padded hunk the line numbers are consecutive: both branches
of `padHunk` zip a contiguous integer range against the content slice. -/
theorem padHunk_consecutive (content : List String) (hunk : List ℤ) (i : ℕ)
    (p q : ℤ × String)
    (hp : (padHunk content hunk)[i]? = some p)
    (hq : (padHunk content hunk)[i + 1]? = some q) : q.1 = p.1 + 1 := by
  unfold padHunk at hp hq
  by_cases hc : hunk.headI - lines_of_context < 0
  · rw [if_pos hc] at hp hq
    rw [intRange_zip_fst _ _ _ _ _ hp, intRange_zip_fst _ _ _ _ _ hq]
    push_cast
    ring
  · rw [if_neg hc] at hp hq
    rw [intRange_zip_fst _ _ _ _ _ hp, intRange_zip_fst _ _ _ _ _ hq]
    push_cast
    ring

/-- C10: in every classified hunk returned by `classify`, consecutive
entries carry consecutive line numbers (each exactly one greater than its
predecessor), and every entry's tag is one of the three strings
`VIOLATION`, `NEWCONTEXT`, `OLDCONTEXT`. -/
theorem C10_consecutive_and_tags (content : List String) (ln : List ℤ)
    (ch : Finset ℤ) (h : List Line) (hh : h ∈ classify content ln ch) :
    (∀ (i : ℕ) (x y : Line), h[i]? = some x → h[i + 1]? = some y →
      y.line_num = x.line_num + 1) ∧
    (∀ l ∈ h, l.line_type = "VIOLATION" ∨ l.line_type = "NEWCONTEXT" ∨
      l.line_type = "OLDCONTEXT") := by
  unfold classify code_and_context at hh
  rw [List.mem_map] at hh
  obtain ⟨w, hw, rfl⟩ := hh
  rw [List.mem_map] at hw
  obtain ⟨hunk, hhunk, rfl⟩ := hw
  constructor
  · intro i x y hx hy
    unfold classifyHunk at hx hy
    rw [List.getElem?_map] at hx hy
    cases hp : (padHunk content hunk)[i]? with
    | none => rw [hp] at hx; simp at hx
    | some a =>
        cases hq : (padHunk content hunk)[i + 1]? with
        | none => rw [hq] at hy; simp at hy
        | some b =>
            rw [hp] at hx
            rw [hq] at hy
            simp only [Option.map_some'] at hx hy
            have hx' : classifyPair ln ch a = x := Option.some.inj hx
            have hy' : classifyPair ln ch b = y := Option.some.inj hy
            rw [← hx', ← hy', classifyPair_line_num, classifyPair_line_num,
              padHunk_consecutive content hunk i a b hp hq]
  · intro l hl
    unfold classifyHunk at hl
    rw [List.mem_map] at hl
    obtain ⟨pp, _, rfl⟩ := hl
    exact classifyPair_line_type ln ch pp

/-- A twelve-line file for C10's witness. -/
def content12 : List String :=
  ["l1", "l2", "l3", "l4", "l5", "l6", "l7", "l8", "l9", "l10", "l11", "l12"]

/-- The one classified hunk produced for missing lines `[10, 16]` on the
twelve-line file (only the hunk `[10]` survives `hunkify`). -/
def h10 : List Line := classifyHunk [10, 16] {9, 10, 11} (padHunk content12 [10])

/-- Witness for C10: on the twelve-line file with missing lines `[10, 16]`
and changed lines `{9, 10, 11}`, the first two entries of the classified
hunk have consecutive line numbers and the violation entry's tag is one of
the three strings. -/
theorem C10_consecutive_and_tags_witness :
    (Line.mk 9 "l9" "NEWCONTEXT").line_num = (Line.mk 8 "l8" "OLDCONTEXT").line_num + 1 ∧
    ((Line.mk 10 "l10" "VIOLATION").line_type = "VIOLATION" ∨
     (Line.mk 10 "l10" "VIOLATION").line_type = "NEWCONTEXT" ∨
     (Line.mk 10 "l10" "VIOLATION").line_type = "OLDCONTEXT") := by
  have h := C10_consecutive_and_tags content12 [10, 16] {9, 10, 11} h10 (by decide)
  exact ⟨h.1 0 (Line.mk 8 "l8" "OLDCONTEXT") (Line.mk 9 "l9" "NEWCONTEXT")
      (by decide) (by decide),
    h.2 (Line.mk 10 "l10" "VIOLATION") (by decide)⟩
